import Mathlib

/-!
Verification of the T.E.S.T. runner (concurrent job orchestration and
result-reconciliation engine) against its natural-language specification.

The Python sources are shallowly embedded:

* `src/python/test/models.py` (`EndpointResult.from_row_data`, `to_dict`)
* `src/python/test/core.py` (`EndpointJobRunner.execute_jobs`,
  `EndpointJobRunner._handle_xvfb_cleanup`, `TESTRunner.run`)
* `src/python/run_test.py` (`write_csv_results`, `main`)

Modelling conventions:

* Python `str` is Lean `String`; character-level operations (`strip`,
  `replace`, `lower`, substring tests) are implemented over `List Char`.
* Python `dict` (with insertion order, as used for CSV rows, molecule
  properties and result maps) is an association list whose update either
  overwrites the existing key in place or appends at the end.
* Python `float(...)` is treated as an abstract parsing oracle
  `parse : String → Option V` for an arbitrary value type `V`; IEEE float
  semantics are out of scope, and every claim about value extraction is
  proved for every oracle.  Concrete instances use `V := Int × Nat`
  where `(m, k)` stands for the decimal `m / 10 ^ k`.
* Wall-clock waiting (`time.sleep`) is modelled by an observation
  sequence `obs : Nat → Bool` giving the file-system check result at each
  successive poll.
* The filesystem state of an endpoint's output artifact at reconciliation
  time is an `ArtifactState`: absent, present with a parse outcome, or an
  exception raised while processing it.
-/

/-! ## Python string primitives -/

/-- Byte-wise prefix test on character lists. -/
def isPrefixL : List Char → List Char → Bool
  | [], _ => true
  | _ :: _, [] => false
  | a :: as, b :: bs => a == b && isPrefixL as bs

/-- Python's `needle in hay` substring containment test. -/
def containsSub (needle : List Char) : List Char → Bool
  | [] => isPrefixL needle []
  | c :: rest => isPrefixL needle (c :: rest) || containsSub needle rest

/-- Python `str.strip()` on a character list. -/
def stripL (l : List Char) : List Char :=
  ((l.dropWhile Char.isWhitespace).reverse.dropWhile Char.isWhitespace).reverse

/-- Python `str.strip()`. -/
def pyStrip (s : String) : String :=
  String.mk (stripL s.toList)

/-- Python `s.replace(",", ".")` — decimal-comma normalisation from
`EndpointResult.from_row_data` (models.py line 72). -/
def pyNormalize (s : String) : String :=
  String.mk (s.toList.map (fun c => if c = ',' then '.' else c))

/-- Python `str.lower()` on a key (ASCII as used by the column names). -/
def lowerL (s : String) : List Char :=
  s.toList.map Char.toLower

/-- Digit run to the natural number it denotes. -/
def natVal (l : List Char) : Nat :=
  l.foldl (fun n c => 10 * n + (c.toNat - 48)) 0

/-- Split a character list at the first dot, if any. -/
def splitAtDot : List Char → List Char × Option (List Char)
  | [] => ([], none)
  | '.' :: rest => ([], some rest)
  | c :: rest =>
      let p := splitAtDot rest
      (c :: p.1, p.2)

/-- Unsigned decimal literal parser: returns a scaled decimal `(m, k)`
standing for `m / 10 ^ k`.  Used as a concrete instance of the abstract
`float()` oracle on plain decimal literals. -/
def parseDecCore (l : List Char) : Option (Int × Nat) :=
  match splitAtDot l with
  | (ip, none) =>
      if ip ≠ [] ∧ ip.all Char.isDigit then some ((natVal ip : Int), 0) else none
  | (ip, some fp) =>
      if (ip ≠ [] ∨ fp ≠ []) ∧ ip.all Char.isDigit ∧ fp.all Char.isDigit then
        some ((natVal ip * 10 ^ fp.length + natVal fp : Int), fp.length)
      else none

/-- Concrete decimal stand-in for Python's `float()` on plain decimal
literals (optional sign, optional fractional part, surrounding
whitespace). -/
def parseDec (s : String) : Option (Int × Nat) :=
  match stripL s.toList with
  | '-' :: rest => (parseDecCore rest).map (fun p => (-p.1, p.2))
  | '+' :: rest => parseDecCore rest
  | l => parseDecCore l

/-- Python `int(...)` on a string: optional sign and a non-empty digit
run, surrounding whitespace allowed; `none` when `int()` would raise. -/
def pyInt? (s : String) : Option Int :=
  match stripL s.toList with
  | '-' :: rest =>
      if rest ≠ [] ∧ rest.all Char.isDigit then some (-(natVal rest : Int)) else none
  | '+' :: rest =>
      if rest ≠ [] ∧ rest.all Char.isDigit then some ((natVal rest : Int)) else none
  | l => if l ≠ [] ∧ l.all Char.isDigit then some ((natVal l : Int)) else none

/-! ## Job executor: xvfb cleanup-race reclassification

Embeds `EndpointJobRunner.execute_jobs` (core.py lines 183–192) and
`EndpointJobRunner._handle_xvfb_cleanup` (core.py lines 196–212).  The
per-poll `time.sleep(0.5)` followed by the
exists/isfile/getsize-positive check is modelled by `obs i`, the result
of the check at the `i`-th poll. -/

/-- core.py lines 184–189: exit status 1, non-empty stderr containing
both `"kill:"` and `"No existe el proceso"`. -/
def isXvfbCleanupError (rc : Int) (stderr : String) : Bool :=
  rc == 1 && !(stderr == "") &&
    containsSub ("kill:".toList) stderr.toList &&
    containsSub ("No existe el proceso".toList) stderr.toList

/-- core.py lines 200–208: poll up to `n` more times starting at poll
index `i`; true as soon as one check succeeds (the `break`). -/
def pollForFile (obs : Nat → Bool) : Nat → Nat → Bool
  | _, 0 => false
  | i, n + 1 => if obs i then true else pollForFile obs (i + 1) n

/-- core.py `_handle_xvfb_cleanup` (lines 196–212): 20 polls; on
success force exit status 0 and replace the recorded stderr. -/
def handleXvfbCleanup (obs : Nat → Bool) (rc : Int) (stderr : String) :
    Int × String :=
  if pollForFile obs 0 20 then (0, "xvfb-run cleanup error ignored")
  else (rc, stderr)

/-- core.py lines 183–192: the per-job outcome recording step of
`execute_jobs`, returning the recorded `(rc, stderr)` pair. -/
def recordJobOutcome (obs : Nat → Bool) (rc : Int) (stderr : String) :
    Int × String :=
  if isXvfbCleanupError rc stderr then handleXvfbCleanup obs rc stderr
  else (rc, stderr)

theorem pollForFile_eq_true_iff (obs : Nat → Bool) :
    ∀ n i, pollForFile obs i n = true ↔ ∃ j, j < n ∧ obs (i + j) = true := by
  intro n
  induction n with
  | zero =>
      intro i
      simp [pollForFile]
  | succ m ih =>
      intro i
      rw [pollForFile]
      cases h : obs i with
      | true =>
          rw [if_pos rfl]
          constructor
          · intro _
            exact ⟨0, Nat.succ_pos m, by simpa using h⟩
          · intro _
            rfl
      | false =>
          rw [if_neg Bool.false_ne_true, ih (i + 1)]
          constructor
          · rintro ⟨j, hj, hobs⟩
            refine ⟨j + 1, by omega, ?_⟩
            have harith : i + (j + 1) = i + 1 + j := by omega
            rw [harith]
            exact hobs
          · rintro ⟨j, hj, hobs⟩
            cases j with
            | zero =>
                exfalso
                have hz : obs i = true := by simpa using hobs
                rw [h] at hz
                exact Bool.false_ne_true hz
            | succ j' =>
                refine ⟨j', by omega, ?_⟩
                have harith : i + 1 + j' = i + (j' + 1) := by omega
                rw [harith]
                exact hobs

/-- C1: a job outcome with exit status 1 and stderr containing both
`"kill:"` and `"No existe el proceso"` is reclassified to exit status 0
with the explanatory note `"xvfb-run cleanup error ignored"` exactly
when some one of the 20 polls observes the artifact as an existing
non-empty regular file; otherwise (no poll succeeds, or the
status/stderr pattern does not match) the recorded outcome keeps the
original exit status and stderr. -/
theorem c1_xvfb_reclassification (rc : Int) (stderr : String) (obs : Nat → Bool) :
    (isXvfbCleanupError rc stderr = true → (∃ j, j < 20 ∧ obs j = true) →
      recordJobOutcome obs rc stderr = (0, "xvfb-run cleanup error ignored")) ∧
    (isXvfbCleanupError rc stderr = true → (∀ j, j < 20 → obs j = false) →
      recordJobOutcome obs rc stderr = (rc, stderr)) ∧
    (isXvfbCleanupError rc stderr = false →
      recordJobOutcome obs rc stderr = (rc, stderr)) := by
  refine ⟨?_, ?_, ?_⟩
  · intro hcls hex
    have hpoll : pollForFile obs 0 20 = true := by
      rw [pollForFile_eq_true_iff]
      obtain ⟨j, hj, ho⟩ := hex
      exact ⟨j, hj, by simpa using ho⟩
    simp [recordJobOutcome, hcls, handleXvfbCleanup, hpoll]
  · intro hcls hall
    have hpoll : pollForFile obs 0 20 = false := by
      cases hp : pollForFile obs 0 20 with
      | false => rfl
      | true =>
          exfalso
          rw [pollForFile_eq_true_iff] at hp
          obtain ⟨j, hj, ho⟩ := hp
          have hfalse := hall j hj
          rw [Nat.zero_add] at ho
          rw [hfalse] at ho
          exact Bool.false_ne_true ho
    simp [recordJobOutcome, hcls, handleXvfbCleanup, hpoll]
  · intro hcls
    simp [recordJobOutcome, hcls]

/-- C1 witness: concrete reclassified and non-reclassified runs. -/
theorem c1_witness :
    isXvfbCleanupError 1 "sh: kill: (123) - No existe el proceso" = true ∧
    recordJobOutcome (fun i => i == 3) 1 "sh: kill: (123) - No existe el proceso" =
      (0, "xvfb-run cleanup error ignored") ∧
    recordJobOutcome (fun _ => false) 1 "sh: kill: (123) - No existe el proceso" =
      (1, "sh: kill: (123) - No existe el proceso") :=
  ⟨by decide,
   (c1_xvfb_reclassification 1 "sh: kill: (123) - No existe el proceso"
      (fun i => i == 3)).1 (by decide) ⟨3, by decide, by decide⟩,
   (c1_xvfb_reclassification 1 "sh: kill: (123) - No existe el proceso"
      (fun _ => false)).2.1 (by decide) (fun j _ => rfl)⟩

/-! ## Result model (models.py)

`EndpointResult.from_row_data` classifies a parsed CSV row.  Rows are
association lists (CSV `DictReader` rows in header order); `desc` is the
endpoint-catalog entry (a dict with keys `name`, `unit`, `description`,
`application`). -/

/-- `try_parse_csv` outcome (core.py lines 83–98): a parsed CSV table,
a raw text blob, or a read error message. -/
inductive Parsed where
  | csv : List (List (String × String)) → Parsed
  | text : String → Parsed
  | error : String → Parsed
deriving DecidableEq

/-- The shapes taken by an `EndpointResult.raw_data` dict: a CSV row,
a `try_parse_csv` blob, or the `{"missing": True}` marker. -/
inductive RawData where
  | row : List (String × String) → RawData
  | parsed : Parsed → RawData
  | missing : RawData
deriving DecidableEq

/-- An endpoint-catalog entry, `dict`-like. -/
abbrev Desc := List (String × String)

/-- Python `d.get(k, dflt)` on a string dict. -/
def pyGetD (d : Desc) (k dflt : String) : String :=
  (d.lookup k).getD dflt

/-- models.py `EndpointResult`, with predicted values drawn from the
abstract float type `V`. -/
structure EndpointResultL (V : Type) where
  name : String
  unit : String
  description : String
  application : String
  value : Option V
  error : Option String
  rawData : Option RawData
deriving DecidableEq

/-- Column-name test of models.py lines 63–68: `k.lower()` contains
`"pred"`, `"pred_value"` or `"pred value"`. -/
def predKey (k : String) : Bool :=
  containsSub ("pred".toList) (lowerL k) ||
    containsSub ("pred_value".toList) (lowerL k) ||
    containsSub ("pred value".toList) (lowerL k)

/-- Python truthiness of the `err` variable (None or a string). -/
def pyTruthyOpt : Option String → Bool
  | none => false
  | some s => !(s == "")

/-- models.py line 55: `err` is the row's `"Error"` field when present
and non-empty. -/
def errorField (row : List (String × String)) : Option String :=
  match row.lookup "Error" with
  | some e => if e == "" then none else some e
  | none => none

/-- models.py lines 60–79: scan the row fields in order; skip empty
values; on a `pred`-like column, strip the value, normalise decimal
commas and try the float oracle: success breaks with that value, failure
records the stripped text as `err` when `err` is still falsy and
continues. -/
def scanPred {V : Type} (parse : String → Option V) :
    List (String × String) → Option String → Option V × Option String
  | [], err => (none, err)
  | (k, v) :: rest, err =>
      if v == "" then scanPred parse rest err
      else if predKey k then
        match parse (pyNormalize (pyStrip v)) with
        | some f => (some f, err)
        | none =>
            scanPred parse rest (if pyTruthyOpt err then err else some (pyStrip v))
      else scanPred parse rest err

/-- models.py `EndpointResult.from_row_data` (lines 40–89). -/
def fromRowData {V : Type} (parse : String → Option V) (desc : Desc)
    (row : List (String × String)) : EndpointResultL V :=
  { name := pyGetD desc "name" ""
    unit := pyGetD desc "unit" "N/A"
    description := pyGetD desc "description" ""
    application := pyGetD desc "application" ""
    value := (scanPred parse row (errorField row)).1
    error := (scanPred parse row (errorField row)).2
    rawData := some (RawData.row row) }

/-- The first field whose column is `pred`-like, whose value is
non-empty and whose value parses: characterises the `value` component of
the scan. -/
def firstNumericPred {V : Type} (parse : String → Option V) :
    List (String × String) → Option V
  | [] => none
  | (k, v) :: rest =>
      if v == "" then firstNumericPred parse rest
      else if predKey k then
        match parse (pyNormalize (pyStrip v)) with
        | some f => some f
        | none => firstNumericPred parse rest
      else firstNumericPred parse rest

theorem scanPred_fst {V : Type} (parse : String → Option V) :
    ∀ (l : List (String × String)) (err : Option String),
      (scanPred parse l err).1 = firstNumericPred parse l := by
  intro l
  induction l with
  | nil => intro err; rfl
  | cons p rest ih =>
      intro err
      obtain ⟨k, v⟩ := p
      rw [scanPred, firstNumericPred]
      by_cases hv : (v == "") = true
      · rw [if_pos hv, if_pos hv]
        exact ih err
      · rw [if_neg hv, if_neg hv]
        by_cases hk : predKey k = true
        · rw [if_pos hk, if_pos hk]
          cases hp : parse (pyNormalize (pyStrip v)) with
          | some f => rfl
          | none => exact ih _
        · rw [if_neg hk, if_neg hk]
          exact ih err

theorem scanPred_snd_truthy {V : Type} (parse : String → Option V) :
    ∀ (l : List (String × String)) (err : Option String),
      pyTruthyOpt err = true → (scanPred parse l err).2 = err := by
  intro l
  induction l with
  | nil => intro err _; rfl
  | cons p rest ih =>
      intro err herr
      obtain ⟨k, v⟩ := p
      rw [scanPred]
      by_cases hv : (v == "") = true
      · rw [if_pos hv]
        exact ih err herr
      · rw [if_neg hv]
        by_cases hk : predKey k = true
        · rw [if_pos hk]
          cases hp : parse (pyNormalize (pyStrip v)) with
          | some f => rfl
          | none =>
              rw [if_pos herr]
              exact ih err herr
        · rw [if_neg hk]
          exact ih err herr

theorem scanPred_append_skip {V : Type} (parse : String → Option V) :
    ∀ (pre l : List (String × String)) (err : Option String),
      (∀ kv ∈ pre, kv.2 = "" ∨ predKey kv.1 = false) →
      scanPred parse (pre ++ l) err = scanPred parse l err := by
  intro pre
  induction pre with
  | nil => intro l err _; rfl
  | cons p rest ih =>
      intro l err hpre
      obtain ⟨k, v⟩ := p
      have hp := hpre (k, v) (List.mem_cons_self _ _)
      rw [List.cons_append, scanPred]
      rcases hp with hv | hk
      · rw [if_pos (by simp [show v = "" from hv])]
        exact ih l err (fun kv hkv => hpre kv (List.mem_cons_of_mem _ hkv))
      · by_cases hv : (v == "") = true
        · rw [if_pos hv]
          exact ih l err (fun kv hkv => hpre kv (List.mem_cons_of_mem _ hkv))
        · rw [if_neg hv, if_neg (by simp [hk])]
          exact ih l err (fun kv hkv => hpre kv (List.mem_cons_of_mem _ hkv))

/-- C3: a row with a non-empty `"Error"` field yields an
`EndpointOutcome` whose error is that field's text verbatim, whatever
any `pred`-like field contributed. -/
theorem c3_error_field_verbatim {V : Type} (parse : String → Option V) (desc : Desc)
    (row : List (String × String)) (e : String)
    (hlook : row.lookup "Error" = some e) (hne : e ≠ "") :
    (fromRowData parse desc row).error = some e := by
  have herr0 : errorField row = some e := by
    simp only [errorField, hlook]
    rw [if_neg (by simpa using hne)]
  show (scanPred parse row (errorField row)).2 = some e
  rw [herr0]
  exact scanPred_snd_truthy parse row (some e) (by simpa [pyTruthyOpt] using hne)

/-- C3 witness: Scenario B row with an empty `Pred_Value` and the error
text `"Calculation failed"`. -/
theorem c3_witness :
    ([("Index", "1"), ("Pred_Value", ""), ("Error", "Calculation failed")] :
        List (String × String)).lookup "Error" = some "Calculation failed" ∧
    "Calculation failed" ≠ "" ∧
    (fromRowData parseDec []
        [("Index", "1"), ("Pred_Value", ""), ("Error", "Calculation failed")]).error =
      some "Calculation failed" :=
  ⟨by decide, by decide,
   c3_error_field_verbatim parseDec []
     [("Index", "1"), ("Pred_Value", ""), ("Error", "Calculation failed")]
     "Calculation failed" (by decide) (by decide)⟩

/-- C4 counterexample: the row
`Index=1, PredA=2.0, Pred_Value=3.14, Error=boom` has a `Pred_Value`
field parsing as 3.14, yet the outcome's value is 2.0 (taken from the
earlier `pred`-like column) and its error is `"boom"`, not empty. -/
theorem c4_counterexample :
    parseDec (pyNormalize (pyStrip "3.14")) = some ((314 : Int), 2) ∧
    (fromRowData parseDec []
        [("Index", "1"), ("PredA", "2.0"), ("Pred_Value", "3.14"), ("Error", "boom")]).value =
      some ((20 : Int), 1) ∧
    (((20 : Int), (1 : Nat)) : Int × Nat) ≠ ((314 : Int), 2) ∧
    (fromRowData parseDec []
        [("Index", "1"), ("PredA", "2.0"), ("Pred_Value", "3.14"), ("Error", "boom")]).error =
      some "boom" :=
  ⟨by decide, by decide, by decide, by decide⟩

/-- C4 (amended): if `Pred_Value` is the first field whose column name
is `pred`-like with a non-empty value, its text parses under the float
oracle after strip and comma→dot normalisation, and the row's `"Error"`
field is absent or empty, then the outcome's value is the parsed float
and its error is empty. -/
theorem c4_pred_value_parses {V : Type} (parse : String → Option V) (desc : Desc)
    (pre post : List (String × String)) (s : String) (q : V)
    (hpre : ∀ kv ∈ pre, kv.2 = "" ∨ predKey kv.1 = false)
    (hs : s ≠ "")
    (hparse : parse (pyNormalize (pyStrip s)) = some q)
    (herr : errorField (pre ++ ("Pred_Value", s) :: post) = none) :
    (fromRowData parse desc (pre ++ ("Pred_Value", s) :: post)).value = some q ∧
    (fromRowData parse desc (pre ++ ("Pred_Value", s) :: post)).error = none := by
  have hscan :
      scanPred parse (pre ++ ("Pred_Value", s) :: post)
          (errorField (pre ++ ("Pred_Value", s) :: post)) = (some q, none) := by
    rw [herr, scanPred_append_skip parse pre (("Pred_Value", s) :: post) none hpre,
      scanPred]
    rw [if_neg (by simpa using hs), if_pos (by decide), hparse]
  exact ⟨by show (scanPred _ _ _).1 = some q; rw [hscan],
         by show (scanPred _ _ _).2 = none; rw [hscan]⟩

/-- C4 witness: Scenario A row `Index=1, Pred_Value=3.14`. -/
theorem c4_witness :
    (∀ kv ∈ ([("Index", "1")] : List (String × String)), kv.2 = "" ∨ predKey kv.1 = false) ∧
    "3.14" ≠ "" ∧
    parseDec (pyNormalize (pyStrip "3.14")) = some ((314 : Int), 2) ∧
    errorField ([("Index", "1")] ++ ("Pred_Value", "3.14") :: []) = none ∧
    ((fromRowData parseDec [] ([("Index", "1")] ++ ("Pred_Value", "3.14") :: [])).value =
        some ((314 : Int), 2) ∧
      (fromRowData parseDec [] ([("Index", "1")] ++ ("Pred_Value", "3.14") :: [])).error =
        none) :=
  ⟨by decide, by decide, by decide, by decide,
   c4_pred_value_parses parseDec [] [("Index", "1")] [] "3.14" ((314 : Int), 2)
     (by decide) (by decide) (by decide) (by decide)⟩

/-- C5 counterexample: in the row `PredA=abc, PredB=3.14` the first
non-empty `pred`-like field `abc` does not parse, its text becomes the
error, but the value 3.14 is still taken from the later `pred`-like
field — the scan does not stop at the first match. -/
theorem c5_counterexample :
    parseDec (pyNormalize (pyStrip "abc")) = none ∧
    (fromRowData parseDec [] [("PredA", "abc"), ("PredB", "3.14")]).value =
      some ((314 : Int), 2) ∧
    (fromRowData parseDec [] [("PredA", "abc"), ("PredB", "3.14")]).error = some "abc" :=
  ⟨by decide, by decide, by decide⟩

/-- C5 (amended): scanning in natural field order, the first non-empty
`pred`-like field whose text does not parse supplies the error text (its
stripped value, when no `"Error"`-field text is present), and the value
is still the first non-empty `pred`-like field of the remainder that
parses as a number. -/
theorem c5_first_pred_scan {V : Type} (parse : String → Option V) (desc : Desc)
    (pre post : List (String × String)) (k v : String)
    (hpre : ∀ kv ∈ pre, kv.2 = "" ∨ predKey kv.1 = false)
    (hv : v ≠ "")
    (hk : predKey k = true)
    (hfail : parse (pyNormalize (pyStrip v)) = none)
    (herr : errorField (pre ++ (k, v) :: post) = none)
    (hstrip : pyStrip v ≠ "") :
    (fromRowData parse desc (pre ++ (k, v) :: post)).error = some (pyStrip v) ∧
    (fromRowData parse desc (pre ++ (k, v) :: post)).value =
      firstNumericPred parse post := by
  have hstep :
      scanPred parse (pre ++ (k, v) :: post) (errorField (pre ++ (k, v) :: post)) =
        scanPred parse post (some (pyStrip v)) := by
    rw [herr, scanPred_append_skip parse pre ((k, v) :: post) none hpre, scanPred]
    rw [if_neg (by simpa using hv), if_pos hk, hfail]
    rfl
  constructor
  · show (scanPred _ _ _).2 = some (pyStrip v)
    rw [hstep]
    exact scanPred_snd_truthy parse post (some (pyStrip v))
      (by simpa [pyTruthyOpt] using hstrip)
  · show (scanPred _ _ _).1 = firstNumericPred parse post
    rw [hstep]
    exact scanPred_fst parse post (some (pyStrip v))

/-- C5 witness: row `PredA=abc, PredB=3.14`. -/
theorem c5_witness :
    "abc" ≠ "" ∧ predKey "PredA" = true ∧
    parseDec (pyNormalize (pyStrip "abc")) = none ∧
    errorField ([] ++ ("PredA", "abc") :: [("PredB", "3.14")]) = none ∧
    pyStrip "abc" ≠ "" ∧
    ((fromRowData parseDec [] ([] ++ ("PredA", "abc") :: [("PredB", "3.14")])).error =
        some (pyStrip "abc") ∧
      (fromRowData parseDec [] ([] ++ ("PredA", "abc") :: [("PredB", "3.14")])).value =
        firstNumericPred parseDec [("PredB", "3.14")]) ∧
    firstNumericPred parseDec [("PredB", "3.14")] = some ((314 : Int), 2) :=
  ⟨by decide, by decide, by decide, by decide, by decide,
   c5_first_pred_scan parseDec [] [] [("PredB", "3.14")] "PredA" "abc"
     (by decide) (by decide) (by decide) (by decide) (by decide) (by decide),
   by decide⟩

/-! ## Output reconciler (`TESTRunner.run`, core.py lines 313–379)

The per-endpoint job results are reduced to their reconciliation-relevant
part: the state of the expected output artifact.  `molecules_map` is an
association list from the 1-based molecule index (a Python `int`) to the
`MoleculeResult`; it is initialised from the SMILES batch and only ever
updated at existing keys. -/

/-- models.py `MoleculeResult` (smiles plus endpoint dict). -/
structure MoleculeResultL (V : Type) where
  smiles : String
  properties : List (String × EndpointResultL V)
deriving DecidableEq

/-- Python `d[k] = v` on a dict: overwrite in place or append. -/
def dictSet {α : Type} (d : List (String × α)) (k : String) (v : α) :
    List (String × α) :=
  if d.any (fun p => p.1 == k) then
    d.map (fun p => if p.1 == k then (k, v) else p)
  else d ++ [(k, v)]

/-- State of one endpoint's output artifact at reconciliation time:
no file at the expected path (core.py line 326 test fails), a file whose
`try_parse_csv` outcome is `Parsed`, or an exception raised inside the
`try` block (core.py line 354). -/
inductive ArtifactState where
  | absent : ArtifactState
  | present : Parsed → ArtifactState
  | raised : String → ArtifactState
deriving DecidableEq

/-- The `molecules_map` dict, keyed by Python int indices. -/
abbrev MoleculeMap (V : Type) := List (Int × MoleculeResultL V)

/-- core.py lines 317–318: `enumerate(smiles_all, 1)` initialisation. -/
def initMolecules {V : Type} : List String → Int → MoleculeMap V
  | [], _ => []
  | s :: rest, i => (i, ⟨s, []⟩) :: initMolecules rest (i + 1)

/-- core.py lines 332–335: `int(row.get("Index", 0))` with the
exception handler coercing to 0. -/
def pyRowIndex (row : List (String × String)) : Int :=
  match row.lookup "Index" with
  | none => 0
  | some s => (pyInt? s).getD 0

/-- core.py lines 331–338: process one CSV data row — update the
molecule's endpoint dict only when the index is an existing key. -/
def applyRow {V : Type} (parse : String → Option V) (desc : Desc) (ep : String)
    (m : MoleculeMap V) (row : List (String × String)) : MoleculeMap V :=
  let idx := pyRowIndex row
  if m.any (fun p => p.1 == idx) then
    m.map (fun p =>
      if p.1 == idx then
        (p.1, ⟨p.2.smiles, dictSet p.2.properties ep (fromRowData parse desc row)⟩)
      else p)
  else m

/-- core.py lines 341–352: the non-CSV blob outcome. -/
def blobResult {V : Type} (desc : Desc) (ep : String) (parsed : Parsed) :
    EndpointResultL V :=
  { name := pyGetD desc "name" ep
    unit := pyGetD desc "unit" "N/A"
    description := pyGetD desc "description" ""
    application := pyGetD desc "application" ""
    value := none
    error := none
    rawData := some (RawData.parsed parsed) }

/-- core.py lines 354–364: the exception outcome. -/
def raisedResult {V : Type} (desc : Desc) (ep : String) (e : String) :
    EndpointResultL V :=
  { name := pyGetD desc "name" ep
    unit := pyGetD desc "unit" "N/A"
    description := pyGetD desc "description" ""
    application := pyGetD desc "application" ""
    value := none
    error := some e
    rawData := none }

/-- core.py lines 366–376: the missing-artifact outcome with the
`{"missing": True}` raw-data marker. -/
def missingResult {V : Type} (desc : Desc) (ep : String) : EndpointResultL V :=
  { name := pyGetD desc "name" ep
    unit := pyGetD desc "unit" "N/A"
    description := pyGetD desc "description" ""
    application := pyGetD desc "application" ""
    value := none
    error := none
    rawData := some RawData.missing }

/-- core.py lines 340–352 and 366–376: attach the same outcome to every
molecule of the map. -/
def setAllProps {V : Type} (m : MoleculeMap V) (ep : String)
    (res : EndpointResultL V) : MoleculeMap V :=
  m.map (fun p => (p.1, ⟨p.2.smiles, dictSet p.2.properties ep res⟩))

/-- core.py lines 321–376: the per-endpoint branch of the reconciliation
loop body. -/
def processEndpoint {V : Type} (parse : String → Option V) (descs : String → Desc)
    (m : MoleculeMap V) : String × ArtifactState → MoleculeMap V
  | (ep, ArtifactState.absent) => setAllProps m ep (missingResult (descs ep) ep)
  | (ep, ArtifactState.raised e) => setAllProps m ep (raisedResult (descs ep) ep e)
  | (ep, ArtifactState.present (Parsed.csv rows)) =>
      if rows.isEmpty then setAllProps m ep (blobResult (descs ep) ep (Parsed.csv rows))
      else rows.foldl (applyRow parse (descs ep) ep) m
  | (ep, ArtifactState.present (Parsed.text t)) =>
      setAllProps m ep (blobResult (descs ep) ep (Parsed.text t))
  | (ep, ArtifactState.present (Parsed.error e)) =>
      setAllProps m ep (blobResult (descs ep) ep (Parsed.error e))

/-- Insert into a sorted list; `pySort` models Python `sorted(...)`. -/
def insSorted (x : Int) : List Int → List Int
  | [] => [x]
  | y :: ys => if x ≤ y then x :: y :: ys else y :: insSorted x ys

/-- Python `sorted(...)` on the key list. -/
def pySort (l : List Int) : List Int :=
  l.foldr insSorted []

/-- core.py line 379: `[molecules_map[k] for k in sorted(molecules_map.keys())]`. -/
def orderedMolecules {V : Type} (m : MoleculeMap V) : List (MoleculeResultL V) :=
  (pySort (m.map Prod.fst)).filterMap
    (fun k => (m.find? (fun p => p.1 == k)).map Prod.snd)

/-- core.py `TESTRunner.run` lines 313–379: initialise the molecule map
from the SMILES batch, fold the per-endpoint artifact states through the
reconciliation loop, and emit the molecules ordered by sorted key. -/
def reconcile {V : Type} (parse : String → Option V) (descs : String → Desc)
    (smilesAll : List String) (results : List (String × ArtifactState)) :
    List (MoleculeResultL V) :=
  orderedMolecules (results.foldl (processEndpoint parse descs) (initMolecules smilesAll 1))

/-- `[s, s+1, ..., s+n-1]` as Python ints. -/
def intRange (s : Int) : Nat → List Int
  | 0 => []
  | n + 1 => s :: intRange (s + 1) n

/-- The index/smiles skeleton of a molecule map. -/
def skeleton {V : Type} (m : MoleculeMap V) : List (Int × String) :=
  m.map (fun p => (p.1, p.2.smiles))

/-- `enumerate(smiles_all, i)` restricted to the skeleton. -/
def enumFrom : Int → List String → List (Int × String)
  | _, [] => []
  | i, s :: rest => (i, s) :: enumFrom (i + 1) rest

theorem skeleton_map_entry {V : Type} (f : Int × MoleculeResultL V → Int × MoleculeResultL V)
    (hf : ∀ p, (f p).1 = p.1 ∧ (f p).2.smiles = p.2.smiles) :
    ∀ m : MoleculeMap V, skeleton (m.map f) = skeleton m := by
  intro m
  induction m with
  | nil => rfl
  | cons p rest ih =>
      show ((f p).1, (f p).2.smiles) :: skeleton (rest.map f) =
        (p.1, p.2.smiles) :: skeleton rest
      rw [(hf p).1, (hf p).2, ih]

theorem skeleton_setAllProps {V : Type} (m : MoleculeMap V) (ep : String)
    (res : EndpointResultL V) : skeleton (setAllProps m ep res) = skeleton m :=
  skeleton_map_entry (fun p => (p.1, ⟨p.2.smiles, dictSet p.2.properties ep res⟩))
    (fun _ => ⟨rfl, rfl⟩) m

theorem skeleton_applyRow {V : Type} (parse : String → Option V) (desc : Desc)
    (ep : String) (m : MoleculeMap V) (row : List (String × String)) :
    skeleton (applyRow parse desc ep m row) = skeleton m := by
  simp only [applyRow]
  by_cases h : m.any (fun p => p.1 == pyRowIndex row) = true
  · rw [if_pos h]
    refine skeleton_map_entry _ (fun p => ?_) m
    by_cases hp : (p.1 == pyRowIndex row) = true
    · rw [if_pos hp]
      exact ⟨rfl, rfl⟩
    · rw [if_neg hp]
      exact ⟨rfl, rfl⟩
  · rw [if_neg h]

theorem skeleton_foldl_applyRow {V : Type} (parse : String → Option V) (desc : Desc)
    (ep : String) :
    ∀ (rows : List (List (String × String))) (m : MoleculeMap V),
      skeleton (rows.foldl (applyRow parse desc ep) m) = skeleton m := by
  intro rows
  induction rows with
  | nil => intro m; rfl
  | cons r rest ih =>
      intro m
      rw [List.foldl_cons, ih, skeleton_applyRow]

theorem skeleton_processEndpoint {V : Type} (parse : String → Option V)
    (descs : String → Desc) (m : MoleculeMap V) (ea : String × ArtifactState) :
    skeleton (processEndpoint parse descs m ea) = skeleton m := by
  obtain ⟨ep, art⟩ := ea
  cases art with
  | absent => exact skeleton_setAllProps m ep _
  | raised e => exact skeleton_setAllProps m ep _
  | present parsed =>
      cases parsed with
      | csv rows =>
          rw [processEndpoint]
          by_cases h : rows.isEmpty = true
          · rw [if_pos h]
            exact skeleton_setAllProps m ep _
          · rw [if_neg h]
            exact skeleton_foldl_applyRow parse (descs ep) ep rows m
      | text t => exact skeleton_setAllProps m ep _
      | error e => exact skeleton_setAllProps m ep _

theorem skeleton_fold_process {V : Type} (parse : String → Option V)
    (descs : String → Desc) :
    ∀ (results : List (String × ArtifactState)) (m : MoleculeMap V),
      skeleton (results.foldl (processEndpoint parse descs) m) = skeleton m := by
  intro results
  induction results with
  | nil => intro m; rfl
  | cons ea rest ih =>
      intro m
      rw [List.foldl_cons, ih, skeleton_processEndpoint]

theorem skeleton_initMolecules {V : Type} :
    ∀ (l : List String) (i : Int), skeleton (initMolecules (V := V) l i) = enumFrom i l := by
  intro l
  induction l with
  | nil => intro i; rfl
  | cons s rest ih =>
      intro i
      show (i, s) :: skeleton (initMolecules rest (i + 1)) = (i, s) :: enumFrom (i + 1) rest
      rw [ih]

theorem enumFrom_keys : ∀ (l : List String) (i : Int),
    (enumFrom i l).map Prod.fst = intRange i l.length := by
  intro l
  induction l with
  | nil => intro i; rfl
  | cons s rest ih =>
      intro i
      show i :: (enumFrom (i + 1) rest).map Prod.fst = i :: intRange (i + 1) rest.length
      rw [ih]

theorem enumFrom_values : ∀ (l : List String) (i : Int),
    (enumFrom i l).map Prod.snd = l := by
  intro l
  induction l with
  | nil => intro i; rfl
  | cons s rest ih =>
      intro i
      show s :: (enumFrom (i + 1) rest).map Prod.snd = s :: rest
      rw [ih]

theorem mem_intRange_le : ∀ (n : Nat) (s y : Int), y ∈ intRange s n → s ≤ y := by
  intro n
  induction n with
  | zero =>
      intro s y h
      simp [intRange] at h
  | succ k ih =>
      intro s y h
      rw [intRange] at h
      rcases List.mem_cons.mp h with h | h
      · omega
      · have := ih (s + 1) y h
        omega

theorem intRange_nodup : ∀ (n : Nat) (s : Int), (intRange s n).Nodup := by
  intro n
  induction n with
  | zero =>
      intro s
      exact List.nodup_nil
  | succ k ih =>
      intro s
      rw [intRange, List.nodup_cons]
      refine ⟨fun hmem => ?_, ih (s + 1)⟩
      have := mem_intRange_le k (s + 1) s hmem
      omega

theorem insSorted_of_le (x : Int) (l : List Int) (h : ∀ y ∈ l, x ≤ y) :
    insSorted x l = x :: l := by
  cases l with
  | nil => rfl
  | cons y ys =>
      rw [insSorted, if_pos]
      exact h y (List.mem_cons_self _ _)

theorem pySort_intRange : ∀ (n : Nat) (s : Int), pySort (intRange s n) = intRange s n := by
  intro n
  induction n with
  | zero => intro s; rfl
  | succ k ih =>
      intro s
      show insSorted s (pySort (intRange (s + 1) k)) = intRange s (k + 1)
      rw [ih (s + 1), intRange]
      exact insSorted_of_le s _ (fun y hy => by have := mem_intRange_le k (s + 1) y hy; omega)

theorem filterMap_congr_mem {α β : Type} (l : List α) (f g : α → Option β)
    (h : ∀ a ∈ l, f a = g a) : l.filterMap f = l.filterMap g := by
  induction l with
  | nil => rfl
  | cons a rest ih =>
      rw [List.filterMap_cons, List.filterMap_cons, h a (List.mem_cons_self _ _),
        ih (fun b hb => h b (List.mem_cons_of_mem _ hb))]

theorem filterMap_find_eq_snd {V : Type} :
    ∀ m : MoleculeMap V, (m.map Prod.fst).Nodup →
      (m.map Prod.fst).filterMap (fun k => (m.find? (fun p => p.1 == k)).map Prod.snd) =
        m.map Prod.snd := by
  intro m
  induction m with
  | nil => intro _; rfl
  | cons p rest ih =>
      intro hnd
      rw [List.map_cons] at hnd
      have hnd' := List.nodup_cons.mp hnd
      have hfind : (p :: rest).find? (fun q => q.1 == p.1) = some p :=
        List.find?_cons_of_pos _ (by simp)
      rw [List.map_cons, List.filterMap_cons, hfind]
      show p.2 :: (rest.map Prod.fst).filterMap
          (fun k => ((p :: rest).find? (fun q => q.1 == k)).map Prod.snd) =
        p.2 :: rest.map Prod.snd
      congr 1
      rw [filterMap_congr_mem (rest.map Prod.fst) _
          (fun k => (rest.find? (fun q => q.1 == k)).map Prod.snd)
          (fun k hk => by
            have hkne : ¬((fun q : Int × MoleculeResultL V => (q.1 == k : Bool)) p = true) := by
              simp only [beq_iff_eq]
              intro he
              exact hnd'.1 (he ▸ hk)
            have hstep : List.find? (fun q => q.1 == k) (p :: rest) =
                List.find? (fun q => q.1 == k) rest :=
              List.find?_cons_of_neg rest hkne
            rw [hstep])]
      exact ih hnd'.2

theorem orderedMolecules_eq_snd {V : Type} (m : MoleculeMap V) (s : Int) (n : Nat)
    (hkeys : m.map Prod.fst = intRange s n) :
    orderedMolecules m = m.map Prod.snd := by
  rw [orderedMolecules, hkeys, pySort_intRange, ← hkeys]
  exact filterMap_find_eq_snd m (by rw [hkeys]; exact intRange_nodup n s)

theorem mapReplace_keys {α : Type} (k : String) (v : α) :
    ∀ d : List (String × α),
      (d.map (fun p => if p.1 == k then (k, v) else p)).map Prod.fst = d.map Prod.fst := by
  intro d
  induction d with
  | nil => rfl
  | cons p rest ih =>
      have hhead : (if p.1 == k then (k, v) else p).1 = p.1 := by
        by_cases hp : (p.1 == k) = true
        · rw [if_pos hp]
          exact (eq_of_beq hp).symm
        · rw [if_neg hp]
      simp only [List.map_cons, hhead, ih]

theorem dictSet_keys {α : Type} (d : List (String × α)) (k : String) (v : α) :
    (dictSet d k v).map Prod.fst =
      if d.any (fun p => p.1 == k) then d.map Prod.fst else d.map Prod.fst ++ [k] := by
  unfold dictSet
  by_cases h : d.any (fun p => p.1 == k) = true
  · rw [if_pos h, if_pos h, mapReplace_keys]
  · rw [if_neg h, if_neg h, List.map_append]
    rfl

theorem dictSet_keys_nodup {α : Type} (d : List (String × α)) (k : String) (v : α)
    (h : (d.map Prod.fst).Nodup) : ((dictSet d k v).map Prod.fst).Nodup := by
  rw [dictSet_keys]
  by_cases ha : d.any (fun p => p.1 == k) = true
  · rw [if_pos ha]
    exact h
  · rw [if_neg ha]
    have hk : k ∉ d.map Prod.fst := by
      intro hkmem
      obtain ⟨p, hp, hpk⟩ := List.mem_map.mp hkmem
      exact ha (List.any_eq_true.mpr ⟨p, hp, by simp [hpk]⟩)
    rw [List.nodup_append]
    exact ⟨h, List.nodup_singleton k, by simpa [List.disjoint_singleton] using hk⟩

theorem dictSet_keys_subset {α : Type} (d : List (String × α)) (k k' : String) (v : α)
    (h : k' ∈ (dictSet d k v).map Prod.fst) : k' ∈ d.map Prod.fst ∨ k' = k := by
  rw [dictSet_keys] at h
  by_cases ha : d.any (fun p => p.1 == k) = true
  · rw [if_pos ha] at h
    exact Or.inl h
  · rw [if_neg ha] at h
    rcases List.mem_append.mp h with h | h
    · exact Or.inl h
    · simp at h
      exact Or.inr h

/-- Invariant carried through the reconciliation fold: every molecule's
endpoint dict has distinct keys, all drawn from `eps`. -/
def propsOK {V : Type} (m : MoleculeMap V) (eps : List String) : Prop :=
  ∀ p ∈ m, (p.2.properties.map Prod.fst).Nodup ∧
    ∀ k ∈ p.2.properties.map Prod.fst, k ∈ eps

theorem propsOK_mono {V : Type} (m : MoleculeMap V) (eps eps' : List String)
    (hsub : ∀ x ∈ eps, x ∈ eps') (h : propsOK m eps) : propsOK m eps' :=
  fun p hp => ⟨(h p hp).1, fun k hk => hsub k ((h p hp).2 k hk)⟩

theorem propsOK_map_entry {V : Type} (m : MoleculeMap V)
    (f : Int × MoleculeResultL V → Int × MoleculeResultL V) (ep : String) (eps : List String)
    (hep : ep ∈ eps)
    (hf : ∀ p ∈ m, (f p).2.properties = p.2.properties ∨
        ∃ res, (f p).2.properties = dictSet p.2.properties ep res)
    (h : propsOK m eps) : propsOK (m.map f) eps := by
  intro q hq
  obtain ⟨p, hp, rfl⟩ := List.mem_map.mp hq
  rcases hf p hp with heq | ⟨res, heq⟩
  · rw [heq]
    exact h p hp
  · rw [heq]
    refine ⟨dictSet_keys_nodup _ _ _ (h p hp).1, fun k hk => ?_⟩
    rcases dictSet_keys_subset _ _ _ _ hk with hmem | hkeq
    · exact (h p hp).2 k hmem
    · rw [hkeq]
      exact hep

theorem propsOK_setAllProps {V : Type} (m : MoleculeMap V) (ep : String)
    (res : EndpointResultL V) (eps : List String) (hep : ep ∈ eps)
    (h : propsOK m eps) : propsOK (setAllProps m ep res) eps :=
  propsOK_map_entry m _ ep eps hep (fun _ _ => Or.inr ⟨res, rfl⟩) h

theorem propsOK_applyRow {V : Type} (parse : String → Option V) (desc : Desc)
    (ep : String) (eps : List String) (m : MoleculeMap V) (row : List (String × String))
    (hep : ep ∈ eps) (h : propsOK m eps) :
    propsOK (applyRow parse desc ep m row) eps := by
  simp only [applyRow]
  by_cases hc : m.any (fun p => p.1 == pyRowIndex row) = true
  · rw [if_pos hc]
    refine propsOK_map_entry m _ ep eps hep (fun p _ => ?_) h
    by_cases hpi : (p.1 == pyRowIndex row) = true
    · rw [if_pos hpi]
      exact Or.inr ⟨_, rfl⟩
    · rw [if_neg hpi]
      exact Or.inl rfl
  · rw [if_neg hc]
    exact h

theorem propsOK_foldl_applyRow {V : Type} (parse : String → Option V) (desc : Desc)
    (ep : String) (eps : List String) (hep : ep ∈ eps) :
    ∀ (rows : List (List (String × String))) (m : MoleculeMap V),
      propsOK m eps → propsOK (rows.foldl (applyRow parse desc ep) m) eps := by
  intro rows
  induction rows with
  | nil => intro m h; exact h
  | cons r rest ih =>
      intro m h
      rw [List.foldl_cons]
      exact ih _ (propsOK_applyRow parse desc ep eps m r hep h)

theorem propsOK_processEndpoint {V : Type} (parse : String → Option V)
    (descs : String → Desc) (m : MoleculeMap V) (ea : String × ArtifactState)
    (eps : List String) (hep : ea.1 ∈ eps) (h : propsOK m eps) :
    propsOK (processEndpoint parse descs m ea) eps := by
  obtain ⟨ep, art⟩ := ea
  cases art with
  | absent => exact propsOK_setAllProps m ep _ eps hep h
  | raised e => exact propsOK_setAllProps m ep _ eps hep h
  | present parsed =>
      cases parsed with
      | csv rows =>
          rw [processEndpoint]
          by_cases hc : rows.isEmpty = true
          · rw [if_pos hc]
            exact propsOK_setAllProps m ep _ eps hep h
          · rw [if_neg hc]
            exact propsOK_foldl_applyRow parse (descs ep) ep eps hep rows m h
      | text t => exact propsOK_setAllProps m ep _ eps hep h
      | error e => exact propsOK_setAllProps m ep _ eps hep h

theorem propsOK_fold_process {V : Type} (parse : String → Option V)
    (descs : String → Desc) :
    ∀ (results : List (String × ArtifactState)) (m : MoleculeMap V) (eps : List String),
      propsOK m eps →
      propsOK (results.foldl (processEndpoint parse descs) m)
        (results.map Prod.fst ++ eps) := by
  intro results
  induction results with
  | nil =>
      intro m eps h
      simpa using h
  | cons ea rest ih =>
      intro m eps h
      rw [List.foldl_cons]
      have h1 : propsOK (processEndpoint parse descs m ea) (ea.1 :: eps) :=
        propsOK_processEndpoint parse descs m ea (ea.1 :: eps) (List.mem_cons_self _ _)
          (propsOK_mono m eps _ (fun x hx => List.mem_cons_of_mem _ hx) h)
      have h2 := ih (processEndpoint parse descs m ea) (ea.1 :: eps) h1
      refine propsOK_mono _ _ _ (fun x hx => ?_) h2
      simp only [List.mem_append, List.mem_cons, List.map_cons] at hx ⊢
      tauto

theorem propsOK_initMolecules {V : Type} :
    ∀ (l : List String) (i : Int) (eps : List String),
      propsOK (initMolecules (V := V) l i) eps := by
  intro l
  induction l with
  | nil =>
      intro i eps p hp
      simp [initMolecules] at hp
  | cons s rest ih =>
      intro i eps p hp
      rw [initMolecules] at hp
      rcases List.mem_cons.mp hp with hph | hp
      · rw [hph]
        exact ⟨List.nodup_nil, by simp⟩
      · exact ih (i + 1) eps p hp

theorem skeleton_keys {V : Type} (m : MoleculeMap V) :
    (skeleton m).map Prod.fst = m.map Prod.fst := by
  induction m with
  | nil => rfl
  | cons p rest ih =>
      show p.1 :: (skeleton rest).map Prod.fst = p.1 :: rest.map Prod.fst
      rw [ih]

theorem skeleton_smiles {V : Type} (m : MoleculeMap V) :
    (skeleton m).map Prod.snd = m.map (fun p => p.2.smiles) := by
  induction m with
  | nil => rfl
  | cons p rest ih =>
      show p.2.smiles :: (skeleton rest).map Prod.snd =
        p.2.smiles :: rest.map (fun p => p.2.smiles)
      rw [ih]

/-- C2: for a non-empty input batch, the reconciled run result has
exactly one molecule per input SMILES, in submission order (ascending
1-based index), each carrying at most one endpoint entry per processed
endpoint; artifact rows whose `Index` matches no input molecule are
dropped and never create a new molecule entry. -/
theorem c2_run_shape {V : Type} (parse : String → Option V) (descs : String → Desc)
    (smilesAll : List String) (results : List (String × ArtifactState))
    (hne : smilesAll ≠ []) :
    (reconcile parse descs smilesAll results).length = smilesAll.length ∧
    (reconcile parse descs smilesAll results).map (fun mol => mol.smiles) = smilesAll ∧
    ∀ mol ∈ reconcile parse descs smilesAll results,
      mol.properties.length ≤ results.length := by
  have hskel : skeleton (results.foldl (processEndpoint parse descs)
      (initMolecules smilesAll 1)) = enumFrom 1 smilesAll := by
    rw [skeleton_fold_process, skeleton_initMolecules]
  have hkeys : (results.foldl (processEndpoint parse descs)
      (initMolecules smilesAll 1)).map Prod.fst = intRange 1 smilesAll.length := by
    rw [← skeleton_keys, hskel, enumFrom_keys]
  have hord : reconcile parse descs smilesAll results =
      (results.foldl (processEndpoint parse descs)
        (initMolecules smilesAll 1)).map Prod.snd := by
    rw [reconcile]
    exact orderedMolecules_eq_snd _ 1 smilesAll.length hkeys
  have hsm : (results.foldl (processEndpoint parse descs)
      (initMolecules smilesAll 1)).map (fun p => p.2.smiles) = smilesAll := by
    rw [← skeleton_smiles, hskel, enumFrom_values]
  refine ⟨?_, ?_, ?_⟩
  · rw [hord, List.length_map]
    have hlen := congrArg List.length hsm
    rw [List.length_map] at hlen
    exact hlen
  · rw [hord, List.map_map]
    exact hsm
  · intro mol hmol
    rw [hord] at hmol
    obtain ⟨p, hp, rfl⟩ := List.mem_map.mp hmol
    have hpo := propsOK_fold_process parse descs results (initMolecules smilesAll 1) []
      (propsOK_initMolecules smilesAll 1 [])
    have hmem := hpo p hp
    have hnodup := hmem.1
    have hsub : ∀ k ∈ p.2.properties.map Prod.fst, k ∈ results.map Prod.fst := by
      intro k hk
      have := hmem.2 k hk
      simpa using this
    calc p.2.properties.length
        = (p.2.properties.map Prod.fst).length := (List.length_map _ _).symm
      _ = (p.2.properties.map Prod.fst).toFinset.card :=
          (List.toFinset_card_of_nodup hnodup).symm
      _ ≤ (results.map Prod.fst).toFinset.card :=
          Finset.card_le_card (fun x hx => by
            rw [List.mem_toFinset] at hx ⊢
            exact hsub x hx)
      _ ≤ (results.map Prod.fst).length := List.toFinset_card_le _
      _ = results.length := List.length_map _ _

/-- C2 witness: two molecules, one endpoint whose artifact reports a
valid row for index 1 and a stray row for index 7. -/
theorem c2_witness :
    (["CCO", "CC"] : List String) ≠ [] ∧
    (reconcile parseDec (fun _ => []) ["CCO", "CC"]
        [("LC50", ArtifactState.present (Parsed.csv
          [[("Index", "1"), ("Pred_Value", "3.14")],
           [("Index", "7"), ("Pred_Value", "1.0")]]))]).length = 2 ∧
    (reconcile parseDec (fun _ => []) ["CCO", "CC"]
        [("LC50", ArtifactState.present (Parsed.csv
          [[("Index", "1"), ("Pred_Value", "3.14")],
           [("Index", "7"), ("Pred_Value", "1.0")]]))]).map (fun mol => mol.smiles) =
      ["CCO", "CC"] ∧
    ∀ mol ∈ reconcile parseDec (fun _ => []) ["CCO", "CC"]
        [("LC50", ArtifactState.present (Parsed.csv
          [[("Index", "1"), ("Pred_Value", "3.14")],
           [("Index", "7"), ("Pred_Value", "1.0")]]))],
      mol.properties.length ≤ 1 :=
  have h := c2_run_shape parseDec (fun _ => []) ["CCO", "CC"]
    [("LC50", ArtifactState.present (Parsed.csv
      [[("Index", "1"), ("Pred_Value", "3.14")],
       [("Index", "7"), ("Pred_Value", "1.0")]]))] (by decide)
  ⟨by decide, h.1, h.2.1, h.2.2⟩

theorem lookup_mapReplace_any {α : Type} (k : String) (v : α) :
    ∀ d : List (String × α), d.any (fun p => p.1 == k) = true →
      (d.map (fun p => if p.1 == k then (k, v) else p)).lookup k = some v := by
  intro d
  induction d with
  | nil =>
      intro h
      simp at h
  | cons p rest ih =>
      intro h
      obtain ⟨k₁, v₁⟩ := p
      simp only [List.map_cons]
      by_cases hp : ((k₁, v₁).1 == k) = true
      · rw [if_pos hp]
        exact List.lookup_cons_self
      · rw [if_neg hp]
        have hp' : (k₁ == k) = false := Bool.eq_false_iff.mpr hp
        have hsym : (k == k₁) = false := by
          have hne : k₁ ≠ k := by simpa using hp
          simpa using Ne.symm hne
        rw [List.lookup_cons]
        simp only [hsym]
        have hrest : rest.any (fun p => p.1 == k) = true := by
          simp only [List.any_cons] at h
          rw [hp', Bool.false_or] at h
          exact h
        exact ih hrest

theorem lookup_append_single {α : Type} (k : String) (v : α) :
    ∀ d : List (String × α), d.any (fun p => p.1 == k) = false →
      (d ++ [(k, v)]).lookup k = some v := by
  intro d
  induction d with
  | nil =>
      intro _
      exact List.lookup_cons_self
  | cons p rest ih =>
      intro h
      obtain ⟨k₁, v₁⟩ := p
      simp only [List.any_cons, Bool.or_eq_false_iff] at h
      have hsym : (k == k₁) = false := by
        have hne : k₁ ≠ k := by simpa using h.1
        simpa using Ne.symm hne
      rw [List.cons_append, List.lookup_cons]
      simp only [hsym]
      exact ih h.2

theorem dictSet_lookup_self {α : Type} (d : List (String × α)) (k : String) (v : α) :
    (dictSet d k v).lookup k = some v := by
  unfold dictSet
  by_cases h : d.any (fun p => p.1 == k) = true
  · rw [if_pos h]
    exact lookup_mapReplace_any k v d h
  · rw [if_neg h]
    exact lookup_append_single k v d (Bool.eq_false_iff.mpr h)

theorem lookup_mapReplace_ne {α : Type} (k k' : String) (v : α) (hne : k ≠ k') :
    ∀ d : List (String × α),
      (d.map (fun p => if p.1 == k' then (k', v) else p)).lookup k = d.lookup k := by
  intro d
  induction d with
  | nil => rfl
  | cons p rest ih =>
      obtain ⟨k₁, v₁⟩ := p
      simp only [List.map_cons]
      by_cases hp : ((k₁, v₁).1 == k') = true
      · rw [if_pos hp]
        rw [List.lookup_cons, List.lookup_cons]
        have h1 : (k == k') = false := by simpa using hne
        have h2 : (k == k₁) = false := by
          have hk1 : k₁ = k' := eq_of_beq hp
          rw [hk1]
          exact h1
        simp only [h1, h2]
        exact ih
      · rw [if_neg hp]
        rw [List.lookup_cons, List.lookup_cons]
        by_cases hk : (k == k₁) = true
        · simp only [hk]
        · simp only [Bool.eq_false_iff.mpr hk]
          exact ih

theorem lookup_append_single_ne {α : Type} (k k' : String) (v : α) (hne : k ≠ k') :
    ∀ d : List (String × α), (d ++ [(k', v)]).lookup k = d.lookup k := by
  intro d
  induction d with
  | nil =>
      rw [List.nil_append, List.lookup_cons]
      have h1 : (k == k') = false := by simpa using hne
      simp only [h1, List.lookup_nil]
  | cons p rest ih =>
      obtain ⟨k₁, v₁⟩ := p
      rw [List.cons_append, List.lookup_cons, List.lookup_cons]
      by_cases hk : (k == k₁) = true
      · simp only [hk]
      · simp only [Bool.eq_false_iff.mpr hk]
        exact ih

theorem dictSet_lookup_ne {α : Type} (d : List (String × α)) (k k' : String) (v : α)
    (hne : k ≠ k') : (dictSet d k' v).lookup k = d.lookup k := by
  unfold dictSet
  by_cases h : d.any (fun p => p.1 == k') = true
  · rw [if_pos h]
    exact lookup_mapReplace_ne k k' v hne d
  · rw [if_neg h]
    exact lookup_append_single_ne k k' v hne d

/-- Every molecule of the map records `res` under key `ep`. -/
def allHave {V : Type} (m : MoleculeMap V) (ep : String) (res : EndpointResultL V) : Prop :=
  ∀ p ∈ m, p.2.properties.lookup ep = some res

theorem allHave_setAllProps {V : Type} (m : MoleculeMap V) (ep : String)
    (res : EndpointResultL V) : allHave (setAllProps m ep res) ep res := by
  intro q hq
  obtain ⟨p, _, rfl⟩ := List.mem_map.mp hq
  exact dictSet_lookup_self _ ep res

theorem allHave_map_entry_ne {V : Type} (m : MoleculeMap V)
    (f : Int × MoleculeResultL V → Int × MoleculeResultL V) (ep ep' : String)
    (res : EndpointResultL V) (hne : ep ≠ ep')
    (hf : ∀ p ∈ m, (f p).2.properties = p.2.properties ∨
        ∃ r, (f p).2.properties = dictSet p.2.properties ep' r)
    (h : allHave m ep res) : allHave (m.map f) ep res := by
  intro q hq
  obtain ⟨p, hp, rfl⟩ := List.mem_map.mp hq
  rcases hf p hp with heq | ⟨r, heq⟩
  · rw [heq]
    exact h p hp
  · rw [heq, dictSet_lookup_ne _ _ _ _ hne]
    exact h p hp

theorem allHave_setAllProps_ne {V : Type} (m : MoleculeMap V) (ep' ep : String)
    (res r : EndpointResultL V) (hne : ep ≠ ep') (h : allHave m ep res) :
    allHave (setAllProps m ep' r) ep res :=
  allHave_map_entry_ne m _ ep ep' res hne (fun _ _ => Or.inr ⟨r, rfl⟩) h

theorem allHave_applyRow {V : Type} (parse : String → Option V) (desc : Desc)
    (ep' ep : String) (res : EndpointResultL V) (m : MoleculeMap V)
    (row : List (String × String)) (hne : ep ≠ ep') (h : allHave m ep res) :
    allHave (applyRow parse desc ep' m row) ep res := by
  simp only [applyRow]
  by_cases hc : m.any (fun p => p.1 == pyRowIndex row) = true
  · rw [if_pos hc]
    refine allHave_map_entry_ne m _ ep ep' res hne (fun p _ => ?_) h
    by_cases hpi : (p.1 == pyRowIndex row) = true
    · rw [if_pos hpi]
      exact Or.inr ⟨_, rfl⟩
    · rw [if_neg hpi]
      exact Or.inl rfl
  · rw [if_neg hc]
    exact h

theorem allHave_foldl_applyRow {V : Type} (parse : String → Option V) (desc : Desc)
    (ep' ep : String) (res : EndpointResultL V) (hne : ep ≠ ep') :
    ∀ (rows : List (List (String × String))) (m : MoleculeMap V),
      allHave m ep res → allHave (rows.foldl (applyRow parse desc ep') m) ep res := by
  intro rows
  induction rows with
  | nil => intro m h; exact h
  | cons r rest ih =>
      intro m h
      rw [List.foldl_cons]
      exact ih _ (allHave_applyRow parse desc ep' ep res m r hne h)

theorem allHave_processEndpoint {V : Type} (parse : String → Option V)
    (descs : String → Desc) (m : MoleculeMap V) (ea : String × ArtifactState)
    (ep : String) (res : EndpointResultL V) (hne : ep ≠ ea.1) (h : allHave m ep res) :
    allHave (processEndpoint parse descs m ea) ep res := by
  obtain ⟨ep', art⟩ := ea
  cases art with
  | absent => exact allHave_setAllProps_ne m ep' ep res _ hne h
  | raised e => exact allHave_setAllProps_ne m ep' ep res _ hne h
  | present parsed =>
      cases parsed with
      | csv rows =>
          rw [processEndpoint]
          by_cases hc : rows.isEmpty = true
          · rw [if_pos hc]
            exact allHave_setAllProps_ne m ep' ep res _ hne h
          · rw [if_neg hc]
            exact allHave_foldl_applyRow parse (descs ep') ep' ep res hne rows m h
      | text t => exact allHave_setAllProps_ne m ep' ep res _ hne h
      | error e => exact allHave_setAllProps_ne m ep' ep res _ hne h

theorem allHave_fold_process {V : Type} (parse : String → Option V)
    (descs : String → Desc) :
    ∀ (results : List (String × ArtifactState)) (m : MoleculeMap V)
      (ep : String) (res : EndpointResultL V),
      (∀ k ∈ results.map Prod.fst, ep ≠ k) → allHave m ep res →
      allHave (results.foldl (processEndpoint parse descs) m) ep res := by
  intro results
  induction results with
  | nil => intro m ep res _ h; exact h
  | cons ea rest ih =>
      intro m ep res hk h
      rw [List.foldl_cons]
      refine ih _ ep res (fun k hk' => hk k (by simp [hk'])) ?_
      exact allHave_processEndpoint parse descs m ea ep res
        (hk ea.1 (by simp)) h

theorem mem_orderedMolecules {V : Type} {m : MoleculeMap V} {mol : MoleculeResultL V}
    (h : mol ∈ orderedMolecules m) : ∃ k, (k, mol) ∈ m := by
  rw [orderedMolecules] at h
  obtain ⟨k, _, hfind⟩ := List.mem_filterMap.mp h
  cases hf : m.find? (fun p => p.1 == k) with
  | none =>
      rw [hf] at hfind
      simp at hfind
  | some p =>
      rw [hf] at hfind
      simp only [Option.map_some'] at hfind
      rw [Option.some_inj] at hfind
      have hpm := List.mem_of_find?_eq_some hf
      exact ⟨p.1, by rw [← hfind]; exact hpm⟩

/-- C6: when an endpoint's output artifact is absent at reconciliation
time, every molecule of the run result carries for that endpoint an
outcome with no value, no error, and exactly the `missing` raw-data
marker. -/
theorem c6_missing_artifact {V : Type} (parse : String → Option V) (descs : String → Desc)
    (smilesAll : List String) (results : List (String × ArtifactState)) (ep : String)
    (hmem : (ep, ArtifactState.absent) ∈ results)
    (hnodup : (results.map Prod.fst).Nodup) :
    ∀ mol ∈ reconcile parse descs smilesAll results,
      mol.properties.lookup ep = some (missingResult (descs ep) ep) ∧
      (missingResult (descs ep) ep : EndpointResultL V).value = none ∧
      (missingResult (descs ep) ep : EndpointResultL V).error = none ∧
      (missingResult (descs ep) ep : EndpointResultL V).rawData = some RawData.missing := by
  obtain ⟨r1, r2, hsplit⟩ := List.append_of_mem hmem
  subst hsplit
  have hk2 : ∀ k ∈ r2.map Prod.fst, ep ≠ k := by
    intro k hk heq
    rw [List.map_append] at hnodup
    have h2 := (List.nodup_append.mp hnodup).2.1
    rw [List.map_cons] at h2
    exact (List.nodup_cons.mp h2).1 (heq ▸ hk)
  intro mol hmol
  rw [reconcile, List.foldl_append, List.foldl_cons] at hmol
  have hall : allHave
      (r2.foldl (processEndpoint parse descs)
        (processEndpoint parse descs
          (r1.foldl (processEndpoint parse descs) (initMolecules smilesAll 1))
          (ep, ArtifactState.absent)))
      ep (missingResult (descs ep) ep) :=
    allHave_fold_process parse descs r2 _ ep _ hk2
      (allHave_setAllProps _ ep (missingResult (descs ep) ep))
  obtain ⟨k, hkm⟩ := mem_orderedMolecules hmol
  exact ⟨hall (k, mol) hkm, rfl, rfl, rfl⟩

/-- C6 witness: one molecule, one endpoint with an absent artifact. -/
theorem c6_witness :
    (⟨"CCO", [("BP", missingResult [] "BP")]⟩ :
        MoleculeResultL (Int × Nat)).properties.lookup "BP" =
      some (missingResult [] "BP") ∧
    (missingResult [] "BP" : EndpointResultL (Int × Nat)).value = none ∧
    (missingResult [] "BP" : EndpointResultL (Int × Nat)).error = none ∧
    (missingResult [] "BP" : EndpointResultL (Int × Nat)).rawData = some RawData.missing :=
  c6_missing_artifact parseDec (fun _ => []) ["CCO"] [("BP", ArtifactState.absent)] "BP"
    (by decide) (by decide)
    ⟨"CCO", [("BP", missingResult [] "BP")]⟩
    (by
      rw [show reconcile parseDec (fun _ => []) ["CCO"] [("BP", ArtifactState.absent)] =
        [⟨"CCO", [("BP", missingResult [] "BP")]⟩] from rfl]
      exact List.mem_cons_self _ _)

/-- The row's `"Index"` field is absent, or its text is not accepted by
Python `int(...)` (empty, non-numeric, ...). -/
def badIndexField (row : List (String × String)) : Bool :=
  match row.lookup "Index" with
  | none => true
  | some s => (pyInt? s).isNone

/-- C9: a data row whose `"Index"` field is absent, empty or not
parseable as an integer is coerced to molecule index 0; since molecule
keys are the 1-based batch positions, the row matches no molecule and
the row-processing step returns the molecule map unchanged, raising no
error. -/
theorem c9_bad_index_dropped {V : Type} (parse : String → Option V) (desc : Desc)
    (ep : String) (row : List (String × String)) (m : MoleculeMap V) (N : Nat)
    (hbad : badIndexField row = true)
    (hkeys : m.map Prod.fst = intRange 1 N) :
    pyRowIndex row = 0 ∧ applyRow parse desc ep m row = m := by
  have hidx : pyRowIndex row = 0 := by
    cases hl : row.lookup "Index" with
    | none => simp [pyRowIndex, hl]
    | some s =>
        simp only [badIndexField, hl] at hbad
        simp only [pyRowIndex, hl]
        cases hp : pyInt? s with
        | none => rfl
        | some n =>
            rw [hp] at hbad
            simp at hbad
  have hany : m.any (fun p => p.1 == pyRowIndex row) = false := by
    rw [hidx]
    cases ha : m.any (fun p => p.1 == (0 : Int)) with
    | false => rfl
    | true =>
        exfalso
        obtain ⟨p, hp, hpk⟩ := List.any_eq_true.mp ha
        have hk : p.1 ∈ m.map Prod.fst := List.mem_map_of_mem _ hp
        rw [hkeys] at hk
        have hge := mem_intRange_le N 1 p.1 hk
        have hz : p.1 = 0 := eq_of_beq hpk
        omega
  refine ⟨hidx, ?_⟩
  simp only [applyRow]
  rw [if_neg (by rw [hany]; exact Bool.false_ne_true)]

/-- C9 witness: a row with the non-numeric index text `"abc"` leaves a
one-molecule map untouched. -/
theorem c9_witness :
    badIndexField [("Index", "abc"), ("Pred_Value", "3.14")] = true ∧
    pyRowIndex [("Index", "abc"), ("Pred_Value", "3.14")] = 0 ∧
    applyRow parseDec [] "LC50" (initMolecules ["CCO"] 1)
        [("Index", "abc"), ("Pred_Value", "3.14")] =
      initMolecules ["CCO"] 1 :=
  have h := c9_bad_index_dropped parseDec [] "LC50"
    [("Index", "abc"), ("Pred_Value", "3.14")] (initMolecules ["CCO"] 1) 1
    (by decide) (by decide)
  ⟨by decide, h.1, h.2⟩

/-! ## Serialised report values (models.py `to_dict`, run_test.py)

`PyVal V` is the universe of JSON-like Python values appearing in the
serialised report, with predicted values again drawn from the abstract
float type `V` and Python ints kept separate. -/

inductive PyVal (V : Type) where
  | str : String → PyVal V
  | num : V → PyVal V
  | intVal : Int → PyVal V
  | bool : Bool → PyVal V
  | none : PyVal V
  | list : List (PyVal V) → PyVal V
  | dict : List (String × PyVal V) → PyVal V

/-- Python truthiness of a report value.  (The float case is modelled
as always truthy; Python's `0.0`-falsiness is not representable for the
abstract `V` and no verified claim depends on it.) -/
def pyTruthy {V : Type} : PyVal V → Bool
  | PyVal.str s => !(s == "")
  | PyVal.num _ => true
  | PyVal.intVal n => !(n == 0)
  | PyVal.bool b => b
  | PyVal.none => false
  | PyVal.list l => !l.isEmpty
  | PyVal.dict d => !d.isEmpty

/-- A CSV row dict as a report value. -/
def rowToPy {V : Type} (row : List (String × String)) : List (String × PyVal V) :=
  row.map (fun p => (p.1, PyVal.str p.2))

/-- A `try_parse_csv` blob as the report value it serialises to. -/
def parsedToPy {V : Type} : Parsed → PyVal V
  | Parsed.csv rows =>
      PyVal.dict [("type", PyVal.str "csv"),
        ("data", PyVal.list (rows.map (fun r => PyVal.dict (rowToPy r))))]
  | Parsed.text t => PyVal.dict [("type", PyVal.str "text"), ("data", PyVal.str t)]
  | Parsed.error e => PyVal.dict [("type", PyVal.str "error"), ("error", PyVal.str e)]

/-- The `raw_data` slot as a report value. -/
def rawDataToPy {V : Type} : Option RawData → PyVal V
  | Option.none => PyVal.none
  | some (RawData.row r) => PyVal.dict (rowToPy r)
  | some (RawData.parsed p) => parsedToPy p
  | some RawData.missing => PyVal.dict [("missing", PyVal.bool true)]

/-- models.py `EndpointResult.to_dict` (lines 24–30): `asdict` field
order, with `value` replaced by `"NA"` exactly when it `is None` and
`error` replaced by `"NA"` whenever it is falsy (None or empty). -/
def endpointResultToDict {V : Type} (r : EndpointResultL V) : PyVal V :=
  PyVal.dict
    [("name", PyVal.str r.name),
     ("unit", PyVal.str r.unit),
     ("description", PyVal.str r.description),
     ("application", PyVal.str r.application),
     ("value", match r.value with
       | some q => PyVal.num q
       | Option.none => PyVal.str "NA"),
     ("error", match r.error with
       | some e => if e == "" then PyVal.str "NA" else PyVal.str e
       | Option.none => PyVal.str "NA"),
     ("raw_data", rawDataToPy r.rawData)]

/-- models.py `MoleculeResult.to_dict` (lines 99–103). -/
def moleculeResultToDict {V : Type} (m : MoleculeResultL V) : PyVal V :=
  PyVal.dict
    [("smiles", PyVal.str m.smiles),
     ("properties", PyVal.dict (m.properties.map (fun p => (p.1, endpointResultToDict p.2))))]

/-- models.py `TestResults.to_dict` (lines 114–119): `molecules` is a
JSON **array**. -/
def testResultsToDict {V : Type} (metadata diagnostics : List (String × PyVal V))
    (molecules : List (MoleculeResultL V)) : PyVal V :=
  PyVal.dict
    [("metadata", PyVal.dict metadata),
     ("diagnostics", PyVal.dict diagnostics),
     ("molecules", PyVal.list (molecules.map moleculeResultToDict))]

/-- core.py lines 381–390: the `metadata` dict built by `TESTRunner.run`. -/
def runMetadata {V : Type} (timestamp : String) (endpointCount : Nat) (workers : Int)
    (timeout : Option Int) : List (String × PyVal V) :=
  [("version", PyVal.str "1.0"),
   ("timestamp", PyVal.str timestamp),
   ("tool", PyVal.str "T.E.S.T. Runner"),
   ("endpoint_count", PyVal.intVal endpointCount),
   ("workers", PyVal.intVal workers),
   ("timeout_sec", match timeout with
     | some t => PyVal.intVal t
     | Option.none => PyVal.none)]

/-- run_test.py `main` lines 66–68: `results["metadata"]["calculate"] =
args.calculate`, only when `args.calculate` is truthy. -/
def mainMetadata {V : Type} (calculate : Option String)
    (md : List (String × PyVal V)) : List (String × PyVal V) :=
  match calculate with
  | some c => if c == "" then md else dictSet md "calculate" (PyVal.str c)
  | Option.none => md

/-- Python `v.get(k, dflt)`: `AttributeError` on a non-dict receiver. -/
def pyGetAttrDefault {V : Type} (v : PyVal V) (k : String) (dflt : PyVal V) :
    Except String (PyVal V) :=
  match v with
  | PyVal.dict d => Except.ok ((d.lookup k).getD dflt)
  | _ => Except.error "AttributeError: get"

/-- Python `v[k]`: `KeyError` on a missing key, `TypeError` on a
non-dict receiver. -/
def pySubscript {V : Type} (v : PyVal V) (k : String) : Except String (PyVal V) :=
  match v with
  | PyVal.dict d =>
      match d.lookup k with
      | some x => Except.ok x
      | Option.none => Except.error "KeyError"
  | _ => Except.error "TypeError: not subscriptable"

/-- Python `v.values()`: run_test.py applies it to `results["molecules"]`,
which raises `AttributeError` whenever that value is not a dict (in
particular when it is the list produced by `TestResults.to_dict`). -/
def pyValues {V : Type} (v : PyVal V) : Except String (List (PyVal V)) :=
  match v with
  | PyVal.dict d => Except.ok (d.map Prod.snd)
  | _ => Except.error "AttributeError: values"

/-- Python `for k in v` over a dict: its keys. -/
def pyDictKeys {V : Type} (v : PyVal V) : Except String (List String) :=
  match v with
  | PyVal.dict d => Except.ok (d.map Prod.fst)
  | _ => Except.error "TypeError: iteration"

/-- Elements of a sortable list of strings (`sorted` raises `TypeError`
on non-string elements mixed with strings; modelled coarsely). -/
def pyStrList {V : Type} : List (PyVal V) → Except String (List String)
  | [] => Except.ok []
  | PyVal.str s :: rest => (pyStrList rest).map (fun l => s :: l)
  | _ => Except.error "TypeError: sorted"

/-- Lexicographic character-code comparison backing `sorted` on strings. -/
def leListChar : List Char → List Char → Bool
  | [], _ => true
  | _ :: _, [] => false
  | a :: as, b :: bs =>
      if a.toNat < b.toNat then true
      else if b.toNat < a.toNat then false
      else leListChar as bs

/-- Insertion step of `sorted` on strings. -/
def insSortedStr (x : String) : List String → List String
  | [] => [x]
  | y :: ys => if leListChar x.toList y.toList then x :: y :: ys else y :: insSortedStr x ys

/-- Python `sorted(...)` / `.sort()` on a string list. -/
def pySortStr (l : List String) : List String :=
  l.foldr insSortedStr []

/-- Python `if k not in acc: acc.append(k)`. -/
def appendUnique (acc : List String) (k : String) : List String :=
  if acc.any (fun x => x == k) then acc else acc ++ [k]

/-- run_test.py lines 37–41: `[v for k, v in row_data.items() if
"Pred_Value" in k and v and v.strip()]` (case-sensitive containment;
`.strip()` raises on non-string values). -/
def predCandidates {V : Type} : List (String × PyVal V) → Except String (List (PyVal V))
  | [] => Except.ok []
  | (k, v) :: rest =>
      if containsSub ("Pred_Value".toList) k.toList then
        if pyTruthy v then
          match v with
          | PyVal.str s =>
              if !(pyStrip s == "") then (predCandidates rest).map (fun l => PyVal.str s :: l)
              else predCandidates rest
          | _ => Except.error "AttributeError: strip"
        else predCandidates rest
      else predCandidates rest

/-- run_test.py lines 30–46: one CSV cell for one endpoint. -/
def csvCell {V : Type} (molData : PyVal V) (endpoint : String) :
    Except String (PyVal V) := do
  let props ← pySubscript molData "properties"
  match props with
  | PyVal.dict pd =>
      if pd.any (fun p => p.1 == endpoint) then do
        let prop ← pySubscript props endpoint
        match prop with
        | PyVal.dict propd =>
            if propd.any (fun p => p.1 == "row_data") then do
              let rowData ← pySubscript prop "row_data"
              match rowData with
              | PyVal.dict rd => do
                  let cands ← predCandidates rd
                  match cands with
                  | c :: _ => Except.ok c
                  | [] =>
                      if rd.any (fun p => p.1 == "Error") then do
                        let ev ← pySubscript rowData "Error"
                        if pyTruthy ev then Except.ok (PyVal.str "ERROR")
                        else Except.ok (PyVal.str "NA")
                      else Except.ok (PyVal.str "NA")
              | _ => Except.error "AttributeError: items"
            else Except.ok (PyVal.str "NA")
        | _ => Except.error "TypeError: in"
      else Except.ok (PyVal.str "NA")
  | _ => Except.error "TypeError: in"

/-- run_test.py lines 28–47: one output row. -/
def csvRow {V : Type} (requested : List String) (molData : PyVal V) :
    Except String (List (String × PyVal V)) := do
  let sm ← pySubscript molData "smiles"
  requested.foldlM (fun row ep => do
    let cell ← csvCell molData ep
    pure (dictSet row ep cell)) [("SMILES", sm)]

/-- run_test.py `write_csv_results` (lines 9–53): returns the header
field names and the row dicts that would be written, or the textual
class of the exception the Python code raises. -/
def writeCsvResults {V : Type} (results : PyVal V) :
    Except String (List String × List (List (String × PyVal V))) := do
  let md ← pyGetAttrDefault results "metadata" (PyVal.dict [])
  let er ← pyGetAttrDefault md "endpoints_requested" PyVal.none
  let requested ←
    if pyTruthy er then do
      let mdv ← pySubscript results "metadata"
      let erv ← pySubscript mdv "endpoints_requested"
      match erv with
      | PyVal.list l => (pyStrList l).map pySortStr
      | _ => Except.error "TypeError: sorted"
    else do
      let molsv ← pySubscript results "molecules"
      let mols ← pyValues molsv
      let requested0 ← mols.foldlM (fun acc molData => do
        let props ← pyGetAttrDefault molData "properties" (PyVal.dict [])
        let keys ← pyDictKeys props
        pure (keys.foldl appendUnique acc)) ([] : List String)
      pure (pySortStr requested0)
  let molsv ← pySubscript results "molecules"
  let mols ← pyValues molsv
  let rows ← mols.mapM (csvRow requested)
  pure ("SMILES" :: requested, rows)

/-- C7 (code-bug evaluation): `write_csv_results` never succeeds on the
report dict produced by `TESTRunner.run` and `main`: `results["molecules"]`
is a JSON array (list), and the writer calls `.values()` on it, raising
`AttributeError` — for every batch, endpoint set, timestamp and
`--calculate` argument. -/
theorem c7_csv_writer_crashes {V : Type} (ts : String) (ec : Nat) (w : Int)
    (t : Option Int) (c : Option String) (diagnostics : List (String × PyVal V))
    (molecules : List (MoleculeResultL V)) :
    writeCsvResults (testResultsToDict (mainMetadata c (runMetadata ts ec w t))
        diagnostics molecules) =
      Except.error "AttributeError: values" := by
  cases c with
  | none => rfl
  | some s =>
      by_cases hs : (s == "") = true
      · have hmd : mainMetadata (some s) (runMetadata (V := V) ts ec w t) =
            runMetadata ts ec w t := by
          simp only [mainMetadata]
          rw [if_pos hs]
        rw [hmd]
        rfl
      · have hmd : mainMetadata (some s) (runMetadata (V := V) ts ec w t) =
            dictSet (runMetadata ts ec w t) "calculate" (PyVal.str s) := by
          simp only [mainMetadata]
          rw [if_neg hs]
        rw [hmd]
        rfl

/-- C8 counterexample: a run with no explicit endpoint subset records
only the six fixed metadata keys — no key holds the requested endpoint
identifiers. -/
theorem c8_counterexample :
    (mainMetadata Option.none
        (runMetadata (V := Int × Nat) "2026-01-01T00:00:00" 5 6 Option.none)).map Prod.fst =
      ["version", "timestamp", "tool", "endpoint_count", "workers", "timeout_sec"] ∧
    (mainMetadata Option.none
        (runMetadata (V := Int × Nat) "2026-01-01T00:00:00" 5 6 Option.none)).lookup
      "calculate" = Option.none ∧
    (mainMetadata Option.none
        (runMetadata (V := Int × Nat) "2026-01-01T00:00:00" 5 6 Option.none)).lookup
      "endpoints_requested" = Option.none :=
  ⟨rfl, rfl, rfl⟩

/-- C8 (amended): run metadata always records the timestamp, the
endpoint count, and the worker-count and timeout configuration; the
requested endpoint identifiers are recorded (as the raw `--calculate`
string under the `"calculate"` key) only when an explicit non-empty
subset string was given, and not at all when all endpoints were
requested by default. -/
theorem c8_metadata_records {V : Type} (ts : String) (ec : Nat) (w : Int)
    (t : Option Int) (c : Option String) :
    (mainMetadata c (runMetadata (V := V) ts ec w t)).lookup "timestamp" =
      some (PyVal.str ts) ∧
    (mainMetadata c (runMetadata (V := V) ts ec w t)).lookup "endpoint_count" =
      some (PyVal.intVal ec) ∧
    (mainMetadata c (runMetadata (V := V) ts ec w t)).lookup "workers" =
      some (PyVal.intVal w) ∧
    (mainMetadata c (runMetadata (V := V) ts ec w t)).lookup "timeout_sec" =
      some (match t with
        | some x => PyVal.intVal x
        | Option.none => PyVal.none) ∧
    (∀ s, c = some s → s ≠ "" →
      (mainMetadata c (runMetadata (V := V) ts ec w t)).lookup "calculate" =
        some (PyVal.str s)) ∧
    (c = Option.none →
      (mainMetadata c (runMetadata (V := V) ts ec w t)).lookup "calculate" =
        Option.none) := by
  cases c with
  | none =>
      refine ⟨rfl, rfl, rfl, rfl, ?_, fun _ => rfl⟩
      intro s hc
      exact absurd hc (by simp)
  | some s =>
      by_cases hs : (s == "") = true
      · have hmd : mainMetadata (some s) (runMetadata (V := V) ts ec w t) =
            runMetadata ts ec w t := by
          simp only [mainMetadata]
          rw [if_pos hs]
        rw [hmd]
        refine ⟨rfl, rfl, rfl, rfl, ?_, ?_⟩
        · intro s' hc hne
          rw [Option.some_inj] at hc
          rw [← hc] at hne
          exact absurd (eq_of_beq hs) hne
        · intro hc
          exact absurd hc (by simp)
      · have hmd : mainMetadata (some s) (runMetadata (V := V) ts ec w t) =
            dictSet (runMetadata ts ec w t) "calculate" (PyVal.str s) := by
          simp only [mainMetadata]
          rw [if_neg hs]
        rw [hmd]
        refine ⟨rfl, rfl, rfl, rfl, ?_, ?_⟩
        · intro s' hc _
          rw [Option.some_inj] at hc
          rw [← hc]
          rfl
        · intro hc
          exact absurd hc (by simp)

/-- C8 witness: an explicit subset `"BP,VP"` and a default run. -/
theorem c8_witness :
    (mainMetadata (some "BP,VP")
        (runMetadata (V := Int × Nat) "2026-01-01T00:00:00" 2 6 (some 60))).lookup
      "timestamp" = some (PyVal.str "2026-01-01T00:00:00") ∧
    (mainMetadata (some "BP,VP")
        (runMetadata (V := Int × Nat) "2026-01-01T00:00:00" 2 6 (some 60))).lookup
      "endpoint_count" = some (PyVal.intVal 2) ∧
    (mainMetadata (some "BP,VP")
        (runMetadata (V := Int × Nat) "2026-01-01T00:00:00" 2 6 (some 60))).lookup
      "workers" = some (PyVal.intVal 6) ∧
    (mainMetadata (some "BP,VP")
        (runMetadata (V := Int × Nat) "2026-01-01T00:00:00" 2 6 (some 60))).lookup
      "calculate" = some (PyVal.str "BP,VP") :=
  have h := c8_metadata_records (V := Int × Nat) "2026-01-01T00:00:00" 2 6 (some 60)
    (some "BP,VP")
  ⟨h.1, h.2.1, h.2.2.1, h.2.2.2.2.1 "BP,VP" rfl (by decide)⟩

/-- Field access on a serialised dict value. -/
def pyDictLookup {V : Type} : PyVal V → String → Option (PyVal V)
  | PyVal.dict d, k => d.lookup k
  | _, _ => Option.none

/-- C10: in the serialised `EndpointResult`, the `value` field is
`"NA"` exactly when the value `is None` (so a genuine `0.0` survives),
while the `error` field is `"NA"` whenever the error is `None` or the
empty string — an empty-string error is indistinguishable from no
error in the report. -/
theorem c10_value_error_na {V : Type} (r : EndpointResultL V) :
    (r.value = Option.none →
      pyDictLookup (endpointResultToDict r) "value" = some (PyVal.str "NA")) ∧
    (∀ q : V, r.value = some q →
      pyDictLookup (endpointResultToDict r) "value" = some (PyVal.num q)) ∧
    ((r.error = Option.none ∨ r.error = some "") →
      pyDictLookup (endpointResultToDict r) "error" = some (PyVal.str "NA")) ∧
    (∀ e, r.error = some e → e ≠ "" →
      pyDictLookup (endpointResultToDict r) "error" = some (PyVal.str e)) := by
  obtain ⟨nm, un, de, ap, val, err, rd⟩ := r
  refine ⟨?_, ?_, ?_, ?_⟩
  · intro h
    subst h
    rfl
  · intro q h
    subst h
    rfl
  · intro h
    rcases h with h | h
    · subst h
      rfl
    · subst h
      rfl
  · intro e h hne
    subst h
    show some (if e == "" then PyVal.str "NA" else PyVal.str e) = some (PyVal.str e)
    rw [if_neg (by simpa using hne)]

/-- C10 witness: a value of `0.0` (scaled decimal `(0, 1)`) survives as
a number while an empty-string error serialises as `"NA"`. -/
theorem c10_witness :
    pyDictLookup (endpointResultToDict
        (⟨"n", "u", "d", "a", some ((0 : Int), 1), some "", Option.none⟩ :
          EndpointResultL (Int × Nat))) "value" = some (PyVal.num ((0 : Int), 1)) ∧
    pyDictLookup (endpointResultToDict
        (⟨"n", "u", "d", "a", some ((0 : Int), 1), some "", Option.none⟩ :
          EndpointResultL (Int × Nat))) "error" = some (PyVal.str "NA") :=
  have h := c10_value_error_na
    (⟨"n", "u", "d", "a", some ((0 : Int), 1), some "", Option.none⟩ :
      EndpointResultL (Int × Nat))
  ⟨h.2.1 ((0 : Int), 1) rfl, h.2.2.1 (Or.inr rfl)⟩
